import Mathlib

/-!
Verification of the AAT signal-processing core against its specification.

The Python sources are embedded shallowly:

* `core/statistics.py` — `calculate_statistics` (sliding-window minimum-variance
  statistics) and its error behaviour.
* `core/data_processor.py` — `detect_columns`, the sync-point detection of
  `load_and_process_data`, and `filter_data`.
* `gui/workers.py` — the G-quality sweep loop of `GQualityWorker.run`.

Modelling conventions:

* Python floats are modelled as exact rationals (`ℚ`).
* `pandas.Series` / `numpy` 1-d arrays are modelled as `List ℚ`.
* Python exceptions are modelled with `Except`: a function that can raise
  returns `Except e α`, and a `try/except` around a call pattern-matches on
  the result.
* `numpy.std` is `sqrt` of the population variance.  `sqrt` is irrational, so
  the embedding carries the population variance (`popVar`) in the slot the
  code stores `np.std(window)`.  All comparisons the code performs on standard
  deviations (`np.argmin`) are order-isomorphic to the same comparisons on the
  variance because `Real.sqrt` is strictly monotone on nonnegative inputs, and
  the concrete values asserted by the spec (`std ≈ 0.0`) satisfy
  `std = 0 ↔ variance = 0`.
-/

namespace AAT

/-- Python exception kinds relevant to the embedded code. -/
inductive PyErr where
  | valueError
  | indexError
deriving DecidableEq, Repr

/-- Python `int(x)` applied to a float: truncation toward zero
(`Int.tdiv` is T-division, and a rational's denominator is positive). -/
def pyInt (q : ℚ) : ℤ := q.num.tdiv (q.den : ℤ)

/-! ## `core/statistics.py` -/

/-- Sum of a list of rationals. -/
def listSum (l : List ℚ) : ℚ := l.foldr (· + ·) 0

/-- `np.mean`: arithmetic mean.  On the empty list numpy yields `NaN` (with a
warning); the embedding yields `0`, which is never observable because every
code path that feeds `listMean` an empty window later raises `IndexError`
before the value is used (see `calculate_statistics`). -/
def listMean (l : List ℚ) : ℚ := listSum l / l.length

/-- `np.mean(np.abs(window))`: mean of absolute values. -/
def meanAbs (l : List ℚ) : ℚ := listMean (l.map (fun x => |x|))

/-- Population variance, i.e. the square of `np.std` (numpy default `ddof=0`).
The code stores `np.std(window)`; the embedding stores its square (see the
header comment on why this is faithful for every observable comparison). -/
def popVar (l : List ℚ) : ℚ := listMean (l.map (fun x => (x - listMean l) ^ 2))

/-- `np.argmin`: index of the minimum, first occurrence on ties (per the
numpy documentation).  Result on the empty list is irrelevant (numpy raises;
the code guards with `len(std_devs) == 0`). -/
def argminQ : List ℚ → ℕ
  | [] => 0
  | [_] => 0
  | a :: b :: rest =>
    let j := argminQ (b :: rest)
    if (b :: rest).getD j 0 < a then j + 1 else 0

/-- One iteration of the sliding-window loop of `calculate_statistics`, for
each start index `i` in turn:

```python
for i in range(num_windows):
    window = gravity_array[i : i + window_size_samples]
    std_devs[i] = float(np.std(window))
    means[i] = float(np.mean(np.abs(window)))   # mean of absolute values
    times[i] = time_array[i]
```

Reading `time_array[i]` raises `IndexError` when `i ≥ len(time_array)`
(which happens exactly when `window_size_samples ≤ 0`, since then
`num_windows = len + 1` or more).  Each successful iteration records the
triple `(np.std(window)², np.mean(|window|), time_array[i])`. -/
def statsRowsAux (gravity time : List ℚ) (wssN : ℕ) :
    List ℕ → Except PyErr (List (ℚ × ℚ × ℚ))
  | [] => .ok []
  | i :: rest =>
    match time.get? i with
    | none => .error .indexError
    | some t =>
      let window := (gravity.drop i).take wssN
      (statsRowsAux gravity time wssN rest).map
        (fun tl => (popVar window, meanAbs window, t) :: tl)

/-- `core/statistics.py`, `calculate_statistics(gravity_level, time, config)`.

```python
window_size = float(config.get("window_size", 0.1))
sampling_rate = int(config.get("sampling_rate", 1000))
window_size_samples = int(window_size * sampling_rate)
if len(gravity_level) != len(time):
    raise ValueError(...)
if len(gravity_level) < window_size_samples:
    return None, None, None
num_windows = len(gravity_level) - window_size_samples + 1
for i in range(num_windows):  # see statsRowsAux
    ...
if len(std_devs) == 0:
    return None, None, None
min_std_index = int(np.argmin(std_devs))
return means[min_std_index], times[min_std_index], std_devs[min_std_index]
```

The result is `.error .valueError` on a length mismatch, `.error .indexError`
when the loop reads past the end of `time` (exactly the case
`window_size_samples ≤ 0`), `.ok none` for the insufficient-data signal, and
otherwise `.ok (some (mean_abs, start_time, variance))` for the selected
window (variance standing for the stored `np.std` value, see the header).

`window_size_samples` is `windowSamples` below, the loop is `statsRowsAux`,
the argmin is `argminQ`. -/
def windowSamples (window_size sampling_rate : ℚ) : ℤ :=
  pyInt (window_size * (pyInt sampling_rate : ℚ))

/-- See the description on `windowSamples` just above. -/
def calculate_statistics (gravity_level time : List ℚ)
    (window_size sampling_rate : ℚ) : Except PyErr (Option (ℚ × ℚ × ℚ)) :=
  if gravity_level.length ≠ time.length then .error .valueError
  else if (gravity_level.length : ℤ) < windowSamples window_size sampling_rate
  then .ok none
  else
    match statsRowsAux gravity_level time
        (windowSamples window_size sampling_rate).toNat
        (List.range ((gravity_level.length : ℤ) -
          windowSamples window_size sampling_rate + 1).toNat) with
    | .error e => .error e
    | .ok rows =>
      if rows.length = 0 then .ok none
      else
        let j := argminQ (rows.map (fun r => r.1))
        let r := rows.getD j (0, 0, 0)
        .ok (some (r.2.1, r.2.2, r.1))

/-- `core/statistics.py`, `calculate_range_statistics(data_array)`:   field
`count` of the returned dict, together with the all-`None` payload on empty
input. -/
structure RangeStats where
  mean : Option ℚ
  absMean : Option ℚ
  std2 : Option ℚ
  min : Option ℚ
  max : Option ℚ
  range : Option ℚ
  count : ℕ
deriving DecidableEq, Repr

/-- `calculate_range_statistics` (the `std` slot carries the variance, as in
`calculate_statistics`). -/
def calculate_range_statistics (l : List ℚ) : RangeStats :=
  if l.isEmpty then
    ⟨none, none, none, none, none, none, 0⟩
  else
    ⟨some (listMean l), some (meanAbs l), some (popVar l),
     some (l.foldr min (l.headD 0)), some (l.foldr max (l.headD 0)),
     some (l.foldr max (l.headD 0) - l.foldr min (l.headD 0)), l.length⟩

/-! ## `core/data_processor.py` -/

/-- `np.where(cond(series))[0]`: the ascending list of indices of the series
whose element satisfies the condition. -/
def npWhere (p : ℚ → Bool) (l : List ℚ) : List ℕ :=
  (List.range l.length).filter (fun i => p (l.getD i 0))

/-- ASCII lowercasing of one character; agrees with Python `str.lower` on
ASCII input (the only input exercised by the spec's scenarios). -/
def asciiLower (c : Char) : Char :=
  if c.toNat ≥ 65 ∧ c.toNat ≤ 90 then Char.ofNat (c.toNat + 32) else c

/-- Python's `needle in haystack` on strings: substring test. -/
def hasSub (needle : List Char) : List Char → Bool
  | [] => needle.isEmpty
  | c :: rest => needle.isPrefixOf (c :: rest) || hasSub needle rest

/-- Keyword match of `detect_columns`: `keyword in column.lower()`. -/
def kwMatch (column : String) (kw : String) : Bool :=
  hasSub kw.data (column.data.map asciiLower)

/-- `core/data_processor.py`, `detect_columns` (column-scanning part; the
CSV-loading and encoding-fallback part is I/O and is represented by its
result, the list of column names plus the numeric-dtype predicate).

```python
for column in data.columns:
    col_lower = column.lower()
    if any(keyword in col_lower for keyword in ["time", "時間", "秒", "s", "sec", "t"]):
        time_columns.append(column)
    if any(keyword in col_lower for keyword in ["acc", "加速度", "a", "accel", "acceleration", "g"]):
        acceleration_columns.append(column)
if not time_columns:
    ... numeric columns not already in acceleration_columns ...
if not acceleration_columns:
    ... numeric columns not already in time_columns ...
```
-/
def detect_columns (columns : List String) (isNumeric : String → Bool) :
    List String × List String :=
  let timeKws : List String := ["time", "時間", "秒", "s", "sec", "t"]
  let accKws : List String := ["acc", "加速度", "a", "accel", "acceleration", "g"]
  let timeCols0 := columns.filter (fun c => timeKws.any (fun k => kwMatch c k))
  let accCols0 := columns.filter (fun c => accKws.any (fun k => kwMatch c k))
  let timeCols :=
    if timeCols0.isEmpty then
      columns.filter (fun c => isNumeric c && !(accCols0.contains c))
    else timeCols0
  let accCols :=
    if accCols0.isEmpty then
      columns.filter (fun c => isNumeric c && !(timeCols.contains c))
    else accCols0
  (timeCols, accCols)

/-- Sync-candidate computation of `load_and_process_data`:
`np.where(np.abs(acceleration) < acceleration_threshold)[0]` for one sensor,
guarded by the enable flag and non-emptiness (else `np.array([])`). -/
def syncCandidates (use : Bool) (acc : List ℚ) (thr : ℚ) : List ℕ :=
  if use && !acc.isEmpty then npWhere (fun x => decide (|x| < thr)) acc else []

/-- Sync-index selection of `load_and_process_data`
(`core/data_processor.py:180–189`), given both sensors' candidate lists:

```python
sync_index_drag = int(sync_indices_drag[0]) if len(sync_indices_drag) > 0 else 0
sync_index_inner = int(sync_indices_inner[0]) if len(sync_indices_inner) > 0 else 0
if use_inner and len(sync_indices_inner) == 0 and len(sync_indices_drag) > 0:
    sync_index_inner = sync_index_drag
```

Returns `(sync_index_inner, sync_index_drag)`. -/
def syncIndices (useInner useDrag : Bool) (accInner accDrag : List ℚ)
    (thr : ℚ) : ℕ × ℕ :=
  let candDrag := syncCandidates useDrag accDrag thr
  let candInner := syncCandidates useInner accInner thr
  let syncDrag := candDrag.headD 0
  let syncInner0 := candInner.headD 0
  let syncInner :=
    if useInner && candInner.isEmpty && !candDrag.isEmpty then syncDrag
    else syncInner0
  (syncInner, syncDrag)

/-- Error kinds of `filter_data` (all surface as `DataProcessingError`; the
constructor records which message the code attaches). -/
inductive DPErr where
  /-- "Inner Capsule/Drag Shieldの加速度データが見つかりませんでした。" -/
  | noData
  /-- "データ長の不一致によりフィルタリングに失敗しました" (an internal
  `IndexError` whose message contains "index"/"length"). -/
  | lengthMismatch
deriving DecidableEq, Repr

/-- One sensor's half of `_find_start_indices`: first index with time ≥ 0,
defaulting to 0 when the series is `None`, empty, or has no such index. -/
def find_start_index (timeS : Option (List ℚ)) : ℕ :=
  match timeS with
  | some l =>
    if !l.isEmpty then (npWhere (fun x => decide (0 ≤ x)) l).headD 0 else 0
  | none => 0

/-- One sensor's half of `_find_end_indices`: first index at or after
`minIdx` whose gravity level is ≥ `end_gravity_level`, defaulting to the last
index when no candidate exists, and to `-1` when the series is `None`/empty. -/
def find_end_index (gl : Option (List ℚ)) (minIdx : ℕ) (egl : ℚ) : ℤ :=
  match gl with
  | some l =>
    if !l.isEmpty then
      match ((npWhere (fun x => decide (egl ≤ x)) l).filter
          (fun i => decide (minIdx ≤ i))).head? with
      | some i => (i : ℤ)
      | none => (l.length : ℤ) - 1
    else -1
  | none => -1

/-- Python positional slice `l[s : e + 1]` for `0 ≤ s` (pandas positional
slicing clamps out-of-range bounds exactly like `List.drop`/`List.take`). -/
def pySlice (l : List ℚ) (s : ℕ) (e : ℤ) : List ℚ :=
  (l.drop s).take (e + 1 - (s : ℤ)).toNat

/-- The in-loop min-index search of `filter_data` for one sensor
(`core/data_processor.py:381–408`): first index whose time is ≥
`time[start] + min_seconds_after_start`, defaulting to the start index; reading
`time.iloc[start]` on a too-short series raises `IndexError`, which the
enclosing handler converts to the length-mismatch `DataProcessingError`. -/
def findMinIndex (timeS : List ℚ) (start : ℕ) (minSec : ℚ) :
    Except DPErr ℕ :=
  match timeS.get? start with
  | none => .error .lengthMismatch
  | some t0 => .ok ((npWhere (fun x => decide (t0 + minSec ≤ x)) timeS).headD start)

/-- `core/data_processor.py`, `filter_data(time, gravity_ic, gravity_ds,
adjusted_time, config)`.  Returns the filtered series quadruple and the
combined end index, or the `DataProcessingError` the code raises.  Faithful to
the source:

* `has_inner`/`has_drag` are non-emptiness of the gravity series;
* when neither sensor has data the code raises `DataProcessingError`
  ("acceleration data not found") before entering the `try:` block;
* start index: first `time ≥ 0` per sensor (`_find_start_indices`);
* min index: first `time ≥ time[start] + min_seconds_after_start`;
* end index: `_find_end_indices`;
* per-sensor slice `[start, end]` (empty if `end < start`);
* combined end index: max of the individual nonnegative end indices, `-1`
  if neither is nonnegative. -/
def filter_data (time glIC glDS adjTime : List ℚ) (minSec egl : ℚ) :
    Except DPErr (List ℚ × List ℚ × List ℚ × List ℚ × ℤ) :=
  let hasInner := !glIC.isEmpty
  let hasDrag := !glDS.isEmpty
  if !hasInner && !hasDrag then .error .noData
  else do
    let startInner := find_start_index (if hasInner then some time else none)
    let startDrag := find_start_index (if hasDrag then some adjTime else none)
    let minIndexInner ←
      if hasInner then findMinIndex time startInner minSec else pure startInner
    let minIndexDrag ←
      if hasDrag then findMinIndex adjTime startDrag minSec else pure startDrag
    let endInner := find_end_index (if hasInner then some glIC else none)
      minIndexInner egl
    let endDrag := find_end_index (if hasDrag then some glDS else none)
      minIndexDrag egl
    let filteredTime :=
      if hasInner && decide ((startInner : ℤ) ≤ endInner) then
        pySlice time startInner endInner
      else []
    let filteredGlIC :=
      if hasInner && decide ((startInner : ℤ) ≤ endInner) then
        pySlice glIC startInner endInner
      else []
    let filteredAdjTime :=
      if hasDrag && decide ((startDrag : ℤ) ≤ endDrag) then
        pySlice adjTime startDrag endDrag
      else []
    let filteredGlDS :=
      if hasDrag && decide ((startDrag : ℤ) ≤ endDrag) then
        pySlice glDS startDrag endDrag
      else []
    let valids := [endInner, endDrag].filter (fun i => decide (0 ≤ i))
    let endIndex := valids.foldr max (-1)
    pure (filteredTime, filteredGlIC, filteredGlDS, filteredAdjTime, endIndex)

/-! ## `gui/workers.py` — `GQualityWorker.run` -/

/-- `np.arange(start, stop, step)` over exact rationals, positive step:
`start + k * step` for `k < ⌈(stop - start) / step⌉` (numpy's documented
length formula).  The G-quality sweep only uses positive steps; a
non-positive step yields `[]` here (numpy would raise or count downward,
neither of which the sweep exercises). -/
def arange (start stop step : ℚ) : List ℚ :=
  if 0 < step then
    (List.range (⌈(stop - start) / step⌉).toNat).map
      (fun k : ℕ => start + (k : ℚ) * step)
  else []

/-- One emitted row of the sweep:
`(window_size, min_time_ic, min_mean_ic, min_std_ic, min_time_ds,
min_mean_ds, min_std_ds)` (std slots carry the variance, see the header). -/
structure GQRow where
  windowSize : ℚ
  timeIc : Option ℚ
  meanIc : Option ℚ
  stdIc : Option ℚ
  timeDs : Option ℚ
  meanDs : Option ℚ
  stdDs : Option ℚ
deriving DecidableEq, Repr

/-- One sensor's guarded, exception-protected statistics call inside the
sweep loop (`gui/workers.py:172–204`):

```python
min_mean, min_time, min_std = None, None, None
try:
    if has_x and data_length_x >= int(window_size * sampling_rate):
        min_mean, min_time, min_std = calculate_statistics(series, time, {...})
except Exception as e:
    log_exception(e, ...)   # swallowed: fields stay None
```

Returns `(min_mean, min_time, min_std)`. -/
def sensorStats (series timeS : List ℚ) (ws sr : ℚ) :
    Option ℚ × Option ℚ × Option ℚ :=
  if !series.isEmpty && decide (pyInt (ws * sr) ≤ (series.length : ℤ)) then
    match calculate_statistics series timeS ws sr with
    | .ok (some (m, t, s)) => (some m, some t, some s)
    | .ok none => (none, none, none)
    | .error _ => (none, none, none)
  else (none, none, none)

/-- One iteration of the sweep loop: the row for one window size, or `none`
when neither sensor produced a mean (`gui/workers.py:206–224`). -/
def gqRow (inner timeS drag adjTime : List ℚ) (sr ws : ℚ) : Option GQRow :=
  let i := sensorStats inner timeS ws sr
  let d := sensorStats drag adjTime ws sr
  if i.1.isSome || d.1.isSome then
    some ⟨ws, i.2.1, i.1, i.2.2, d.2.1, d.1, d.2.2⟩
  else none

/-- `GQualityWorker.run`, with an injected fault: `excAt = some k` models an
unexpected exception — one not caught by the per-sensor handlers — raised
during loop iteration `k`.  The surrounding `try/except`
(`gui/workers.py:248–253`) logs the exception and then stores **and emits the
empty list** (`self.g_quality_data = []; self.finished.emit([])`), discarding
the rows accumulated in the local `g_quality_data`.  `excAt = none` is the
normal run.  The result is the emitted/stored row list. -/
def gqualityRunExc (inner drag timeS adjTime : List ℚ)
    (gqStart gqEnd gqStep sr : ℚ) (excAt : Option ℕ) : List GQRow :=
  let hasInner := !inner.isEmpty
  let hasDrag := !drag.isEmpty
  let windowSizes := arange gqStart (gqEnd + gqStep) gqStep
  let mws := pyInt (gqStart * sr)
  if !hasInner && !hasDrag then []
  else if !((hasInner && decide (mws ≤ (inner.length : ℤ))) ||
            (hasDrag && decide (mws ≤ (drag.length : ℤ)))) then []
  else
    match excAt with
    | some k =>
      if k < windowSizes.length then [] -- outer handler: rows discarded
      else windowSizes.filterMap (gqRow inner timeS drag adjTime sr)
    | none => windowSizes.filterMap (gqRow inner timeS drag adjTime sr)

/-- The fault-free G-quality sweep. -/
def gqualityRun (inner drag timeS adjTime : List ℚ)
    (gqStart gqEnd gqStep sr : ℚ) : List GQRow :=
  gqualityRunExc inner drag timeS adjTime gqStart gqEnd gqStep sr none

/-- Rows held in the worker's local `g_quality_data` after `k` completed loop
iterations (the "rows computed so far" when an exception or cancellation
interrupts iteration `k`). -/
def gqRowsUpTo (inner drag timeS adjTime : List ℚ) (gqStart gqEnd gqStep sr : ℚ)
    (k : ℕ) : List GQRow :=
  ((arange gqStart (gqEnd + gqStep) gqStep).take k).filterMap
    (gqRow inner timeS drag adjTime sr)

/-! ## Supporting lemmas -/

@[simp] lemma pyInt_intCast (n : ℤ) : pyInt (n : ℚ) = n := by simp [pyInt]

@[simp] lemma pyInt_ofNat (n : ℕ) [n.AtLeastTwo] :
    pyInt (no_index (OfNat.ofNat n) : ℚ) = OfNat.ofNat n := by simp [pyInt]

@[simp] lemma pyInt_zero : pyInt 0 = 0 := by simp [pyInt]

@[simp] lemma pyInt_one : pyInt 1 = 1 := by simp [pyInt]

/-- Python truncation agrees with the floor on nonnegative input. -/
lemma pyInt_eq_floor {q : ℚ} (h : 0 ≤ q) : pyInt q = ⌊q⌋ := by
  rw [pyInt, Rat.floor_def]
  exact Int.tdiv_eq_ediv (Rat.num_nonneg.mpr h) (by positivity)

/-- Truncation of a nonnegative integer fraction. -/
lemma pyInt_div_eq (n : ℤ) (d : ℕ) (hn : 0 ≤ n) :
    pyInt ((n : ℚ) / (d : ℚ)) = n / (d : ℤ) := by
  rw [pyInt_eq_floor (by positivity), Rat.floor_intCast_div_natCast]

@[simp] lemma intToNat_ofNat (n : ℕ) [n.AtLeastTwo] :
    (no_index (OfNat.ofNat n) : ℤ).toNat = OfNat.ofNat n := rfl

lemma argminQ_cons_cons (a b : ℚ) (rest : List ℚ) :
    argminQ (a :: b :: rest) =
      if (b :: rest).getD (argminQ (b :: rest)) 0 < a
      then argminQ (b :: rest) + 1 else 0 := rfl

/-- `argminQ` returns a valid index on nonempty input. -/
lemma argminQ_lt_length : ∀ l : List ℚ, l ≠ [] → argminQ l < l.length
  | [], h => absurd rfl h
  | [_], _ => Nat.zero_lt_one
  | a :: b :: rest, _ => by
    have ih := argminQ_lt_length (b :: rest) (by simp)
    rw [argminQ_cons_cons]
    by_cases hc : (b :: rest).getD (argminQ (b :: rest)) 0 < a
    · rw [if_pos hc]
      simpa using Nat.succ_lt_succ ih
    · rw [if_neg hc]
      simp

/-- `argminQ` attains the minimum value. -/
lemma argminQ_le : ∀ (l : List ℚ) (j : ℕ), j < l.length →
    l.getD (argminQ l) 0 ≤ l.getD j 0
  | [], j, hj => absurd hj (by simp)
  | [a], j, hj => by
    have hj0 : j = 0 := by simpa using Nat.lt_one_iff.mp (by simpa using hj)
    subst hj0
    exact le_refl _
  | a :: b :: rest, j, hj => by
    have ih := argminQ_le (b :: rest)
    rw [argminQ_cons_cons]
    by_cases hc : (b :: rest).getD (argminQ (b :: rest)) 0 < a
    · rw [if_pos hc]
      rw [List.getD_cons_succ]
      match j with
      | 0 => exact hc.le
      | j + 1 =>
        rw [List.getD_cons_succ]
        exact ih j (by simpa using hj)
    · rw [if_neg hc]
      rw [List.getD_cons_zero]
      match j with
      | 0 => exact le_refl _
      | j + 1 =>
        rw [List.getD_cons_succ]
        exact (le_of_not_lt hc).trans (ih j (by simpa using hj))

/-- `argminQ` returns the first occurrence of the minimum: all earlier
entries are strictly greater. -/
lemma argminQ_first : ∀ (l : List ℚ) (j : ℕ), j < argminQ l →
    l.getD (argminQ l) 0 < l.getD j 0
  | [], j, hj => absurd hj (by simp [argminQ])
  | [_], j, hj => absurd hj (by simp [argminQ])
  | a :: b :: rest, j, hj => by
    have ih := argminQ_first (b :: rest)
    rw [argminQ_cons_cons] at hj ⊢
    by_cases hc : (b :: rest).getD (argminQ (b :: rest)) 0 < a
    · rw [if_pos hc] at hj ⊢
      rw [List.getD_cons_succ]
      match j with
      | 0 => exact hc
      | j + 1 =>
        rw [List.getD_cons_succ]
        exact ih j (Nat.lt_of_succ_lt_succ hj)
    · rw [if_neg hc] at hj
      exact absurd hj (Nat.not_lt_zero j)

set_option maxRecDepth 4000 in
/-- The sliding-window loop succeeds when every index is in range, returning
one `(variance, mean-of-abs, start-time)` triple per index. -/
lemma statsRowsAux_ok (g t : List ℚ) (w : ℕ) :
    ∀ idxs : List ℕ, (∀ i ∈ idxs, i < t.length) →
    statsRowsAux g t w idxs = .ok (idxs.map (fun i =>
      (popVar ((g.drop i).take w), meanAbs ((g.drop i).take w), t.getD i 0)))
  | [], _ => rfl
  | a :: rest, h => by
    have ha : a < t.length := h a (by simp)
    have hget : t.get? a = some (t.getD a 0) := by
      rw [List.get?_eq_getElem?, List.getD_eq_getElem?_getD, List.getElem?_eq_getElem ha]
      rfl
    have ih := statsRowsAux_ok g t w rest
      (fun i hi => h i (List.mem_cons_of_mem _ hi))
    rw [statsRowsAux, hget, ih]
    rfl

/-- The sliding-window loop raises `IndexError` as soon as some iteration
reads `time` out of range. -/
lemma statsRowsAux_err (g t : List ℚ) (w : ℕ) :
    ∀ idxs : List ℕ, (∃ i ∈ idxs, t.length ≤ i) →
    statsRowsAux g t w idxs = .error .indexError
  | [], h => by simp at h
  | a :: rest, h => by
    by_cases ha : t.length ≤ a
    · have hget : t[a]? = none := List.getElem?_eq_none ha
      simp [statsRowsAux, hget]
    · obtain ⟨i, hi, hilen⟩ := h
      have hirest : i ∈ rest := by
        rcases List.mem_cons.mp hi with rfl | h2
        · exact absurd hilen ha
        · exact h2
      have ih := statsRowsAux_err g t w rest ⟨i, hirest, hilen⟩
      cases hget : t[a]? with
      | none => simp [statsRowsAux, hget]
      | some v => simp [statsRowsAux, hget, ih, Except.map]

/-- `getD` of a function mapped over `List.range`. -/
lemma getD_map_range {α : Type} (f : ℕ → α) (n j : ℕ) (hj : j < n) (d : α) :
    ((List.range n).map f).getD j d = f j := by
  rw [List.getD_eq_getElem?_getD, List.getElem?_map, List.getElem?_range hj]
  rfl

/-- A length mismatch raises `ValueError` unconditionally. -/
lemma calculate_statistics_mismatch (g t : List ℚ) (ws sr : ℚ)
    (h : g.length ≠ t.length) :
    calculate_statistics g t ws sr = .error .valueError := by
  rw [calculate_statistics, if_pos h]

/-- With matching lengths, a series shorter than the window yields the
all-`None` insufficient-data signal. -/
lemma calculate_statistics_insufficient (g t : List ℚ) (ws sr : ℚ)
    (hlen : g.length = t.length) (h : (g.length : ℤ) < windowSamples ws sr) :
    calculate_statistics g t ws sr = .ok none := by
  rw [calculate_statistics, if_neg (by omega), if_pos h]

/-- With matching lengths and a nonpositive sample count, the loop reads
`time` out of range and raises `IndexError` (the insufficient-data branch is
not taken because `len < wss ≤ 0` is impossible). -/
lemma calculate_statistics_indexError (g t : List ℚ) (ws sr : ℚ)
    (hlen : g.length = t.length) (h0 : windowSamples ws sr ≤ 0) :
    calculate_statistics g t ws sr = .error .indexError := by
  have hnumW : t.length < ((g.length : ℤ) - windowSamples ws sr + 1).toNat := by
    omega
  have herr := statsRowsAux_err g t (windowSamples ws sr).toNat
    (List.range ((g.length : ℤ) - windowSamples ws sr + 1).toNat)
    ⟨t.length, List.mem_range.mpr hnumW, le_refl _⟩
  rw [calculate_statistics, if_neg (by omega), if_neg (by omega), herr]

/-- With matching lengths, a positive sample count, and enough data, the
function returns the `(mean-of-abs, start-time, variance)` triple of the
window whose variance is minimal, earliest index on ties. -/
lemma calculate_statistics_run (g t : List ℚ) (ws sr : ℚ)
    (hlen : g.length = t.length) (h1 : 1 ≤ windowSamples ws sr)
    (h2 : windowSamples ws sr ≤ (g.length : ℤ)) :
    ∃ i : ℕ, i + (windowSamples ws sr).toNat ≤ g.length ∧
      calculate_statistics g t ws sr =
        .ok (some (meanAbs ((g.drop i).take (windowSamples ws sr).toNat),
          t.getD i 0, popVar ((g.drop i).take (windowSamples ws sr).toNat))) ∧
      (∀ j, j + (windowSamples ws sr).toNat ≤ g.length →
        popVar ((g.drop i).take (windowSamples ws sr).toNat) ≤
          popVar ((g.drop j).take (windowSamples ws sr).toNat)) ∧
      (∀ j, j < i →
        popVar ((g.drop i).take (windowSamples ws sr).toNat) <
          popVar ((g.drop j).take (windowSamples ws sr).toNat)) := by
  set wss := windowSamples ws sr with hwss
  set wN := wss.toNat with hwN
  set numW := ((g.length : ℤ) - wss + 1).toNat with hnumW
  have hnumWpos : 0 < numW := by omega
  have hjw : ∀ j : ℕ, (j < numW ↔ j + wN ≤ g.length) := by
    intro j
    omega
  set f : ℕ → ℚ × ℚ × ℚ := fun i =>
    (popVar ((g.drop i).take wN), meanAbs ((g.drop i).take wN), t.getD i 0)
    with hf
  have hok := statsRowsAux_ok g t wN (List.range numW)
    (by
      intro i hi
      have := List.mem_range.mp hi
      omega)
  set rows := (List.range numW).map f with hrows
  set stds := rows.map (fun r => r.1) with hstds
  have hstdslen : stds.length = numW := by simp [hstds, hrows]
  set i := argminQ stds with hi
  have hine : stds ≠ [] := by
    intro hnil
    rw [hnil] at hstdslen
    simp at hstdslen
    omega
  have hilt : i < numW := hstdslen ▸ argminQ_lt_length stds hine
  have hstdsAt : ∀ j, j < numW → stds.getD j 0 = popVar ((g.drop j).take wN) := by
    intro j hj
    have : stds = (List.range numW).map (fun k => (f k).1) := by
      simp [hstds, hrows]
    rw [this, getD_map_range _ _ _ hj]
  refine ⟨i, (hjw i).mp hilt, ?_, ?_, ?_⟩
  · rw [calculate_statistics, if_neg (by omega), if_neg (by omega)]
    rw [← hwss, ← hnumW, ← hwN, hok]
    have hrlen : rows.length ≠ 0 := by
      simp only [hrows, List.length_map, List.length_range]
      omega
    have hgetrow : rows.getD i (0, 0, 0) = f i := by
      rw [hrows]
      exact getD_map_range f numW i hilt _
    simp only [hrlen, if_false, ← hstds, ← hi, hgetrow]
  · intro j hj
    have hjlt : j < numW := (hjw j).mpr hj
    have := argminQ_le stds j (hstdslen ▸ hjlt)
    rwa [hstdsAt i hilt, hstdsAt j hjlt] at this
  · intro j hj
    have hjlt : j < numW := lt_trans hj hilt
    have := argminQ_first stds j hj
    rwa [hstdsAt i hilt, hstdsAt j hjlt] at this

/-- For an integer sampling rate and a window with at least one sample, the
code's `int(window_size * int(sampling_rate))` equals
`⌊window_size * sampling_rate⌋`. -/
lemma windowSamples_intCast (ws : ℚ) (sr : ℤ) (h : 0 ≤ ws * (sr : ℚ)) :
    windowSamples ws (sr : ℚ) = ⌊ws * (sr : ℚ)⌋ := by
  rw [windowSamples, pyInt_intCast, pyInt_eq_floor h]

lemma windowSamples_tenth_ten : windowSamples (1/5) 10 = 2 := by
  have h1 : ((1/5 : ℚ) * ((pyInt (10:ℚ) : ℤ) : ℚ)) = ((2:ℤ):ℚ) / ((1:ℕ):ℚ) := by
    norm_num
  rw [windowSamples, h1, pyInt_div_eq 2 1 (by norm_num)]
  decide

lemma windowSamples_frac : windowSamples (9/10) (5/2) = 1 := by
  have h0 : pyInt (5/2 : ℚ) = 2 := by
    have h : (5/2 : ℚ) = ((5:ℤ):ℚ) / ((2:ℕ):ℚ) := by norm_num
    rw [h, pyInt_div_eq 5 2 (by norm_num)]
    decide
  have h1 : ((9/10 : ℚ) * ((pyInt (5/2 : ℚ) : ℤ) : ℚ)) = ((9:ℤ):ℚ) / ((5:ℕ):ℚ) := by
    rw [h0]
    norm_num
  rw [windowSamples, h1, pyInt_div_eq 9 5 (by norm_num)]
  decide

/-- The head of `filter p (range n)`: the least index below `n` satisfying
`p`. -/
lemma filter_range_head (p : ℕ → Bool) :
    ∀ n k : ℕ, ((List.range n).filter p).head? = some k →
      k < n ∧ p k = true ∧ ∀ j < k, p j = false := by
  intro n
  induction n with
  | zero => intro k h; simp at h
  | succ n ih =>
    intro k h
    rw [List.range_succ, List.filter_append] at h
    cases hfe : (List.range n).filter p with
    | nil =>
      rw [hfe, List.nil_append] at h
      have hall : ∀ j < n, p j = false := by
        intro j hj
        have := List.filter_eq_nil_iff.mp hfe j (List.mem_range.mpr hj)
        simpa using this
      by_cases hp : p n
      · rw [List.filter_cons_of_pos hp] at h
        simp only [List.head?_cons, Option.some.injEq] at h
        subst h
        exact ⟨Nat.lt_succ_self n, hp, hall⟩
      · rw [List.filter_cons_of_neg hp, List.filter_nil] at h
        simp at h
    | cons a rest =>
      rw [hfe, List.cons_append, List.head?_cons] at h
      obtain rfl : a = k := by simpa using h
      obtain ⟨h1, h2, h3⟩ := ih a (by rw [hfe]; rfl)
      exact ⟨Nat.lt_succ_of_lt h1, h2, h3⟩

/-- `np.where` returns the empty index list iff no element satisfies the
predicate. -/
lemma npWhere_eq_nil_iff (p : ℚ → Bool) (l : List ℚ) :
    npWhere p l = [] ↔ ∀ j < l.length, p (l.getD j 0) = false := by
  rw [npWhere, List.filter_eq_nil_iff]
  constructor
  · intro h j hj
    simpa using h j (List.mem_range.mpr hj)
  · intro h j hj
    simpa using h j (List.mem_range.mp hj)

lemma npWhere_ne_nil_iff (p : ℚ → Bool) (l : List ℚ) :
    npWhere p l ≠ [] ↔ ∃ j, j < l.length ∧ p (l.getD j 0) = true := by
  rw [Ne, npWhere_eq_nil_iff]
  push_neg
  constructor
  · rintro ⟨j, hj, hp⟩
    exact ⟨j, hj, by revert hp; cases p (l.getD j 0) <;> simp⟩
  · rintro ⟨j, hj, hp⟩
    exact ⟨j, hj, by revert hp; cases p (l.getD j 0) <;> simp⟩

/-- `np.where(...)[0][0]` (via `headD 0` on a nonempty candidate list) is the
least index satisfying the predicate. -/
lemma npWhere_headD_spec (p : ℚ → Bool) (l : List ℚ)
    (hne : npWhere p l ≠ []) :
    (npWhere p l).headD 0 < l.length ∧
      p (l.getD ((npWhere p l).headD 0) 0) = true ∧
      ∀ j < (npWhere p l).headD 0, p (l.getD j 0) = false := by
  obtain ⟨k, rest, hk⟩ : ∃ k rest, npWhere p l = k :: rest := by
    cases h : npWhere p l with
    | nil => exact absurd h hne
    | cons k rest => exact ⟨k, rest, rfl⟩
  have hhead : (npWhere p l).head? = some k := by rw [hk]; rfl
  obtain ⟨h1, h2, h3⟩ := filter_range_head _ _ _ hhead
  rw [hk]
  simp only [List.headD_cons]
  exact ⟨h1, h2, h3⟩

/-- If `g` recovers the source element of every `f`-hit, then mapping `g`
over `l.filterMap f` yields a sub-sequence of `l`. -/
lemma map_filterMap_sublist {α β : Type} (f : α → Option β) (g : β → α)
    (hfg : ∀ x y, f x = some y → g y = x) :
    ∀ l : List α, ((l.filterMap f).map g).Sublist l
  | [] => by simp
  | a :: rest => by
    cases hfa : f a with
    | none =>
      rw [List.filterMap_cons_none hfa]
      exact (map_filterMap_sublist f g hfg rest).cons a
    | some b =>
      rw [List.filterMap_cons_some hfa, List.map_cons, hfg a b hfa]
      exact (map_filterMap_sublist f g hfg rest).cons₂ a

/-- An emitted row records exactly the window size it was computed for. -/
lemma gqRow_windowSize (inner timeS drag adjTime : List ℚ) (sr ws : ℚ)
    (r : GQRow) (h : gqRow inner timeS drag adjTime sr ws = some r) :
    r.windowSize = ws := by
  rw [gqRow] at h
  by_cases hc : (sensorStats inner timeS ws sr).1.isSome ||
      (sensorStats drag adjTime ws sr).1.isSome
  · rw [if_pos hc] at h
    obtain rfl := Option.some.injEq .. ▸ h
    injection h with h2
    rw [← h2]
  · rw [if_neg hc] at h
    exact Option.noConfusion h

/-- Every element of `arange` lies on the arithmetic grid. -/
lemma arange_mem_grid (start stop step : ℚ) (w : ℚ)
    (hw : w ∈ arange start stop step) : ∃ k : ℕ, w = start + k * step := by
  rw [arange] at hw
  by_cases hs : 0 < step
  · rw [if_pos hs] at hw
    obtain ⟨k, _, rfl⟩ := List.mem_map.mp hw
    exact ⟨k, rfl⟩
  · rw [if_neg hs] at hw
    exact absurd hw (List.not_mem_nil w)

/-- Every grid point strictly below `stop` is in `arange` (positive step):
in particular the sweep includes `g_quality_end` whenever it lies on the
grid, since `end < end + step = stop`. -/
lemma arange_grid_mem (start stop step : ℚ) (hs : 0 < step) (k : ℕ)
    (hk : start + k * step < stop) : start + k * step ∈ arange start stop step := by
  rw [arange, if_pos hs]
  refine List.mem_map.mpr ⟨k, List.mem_range.mpr ?_, rfl⟩
  have h1 : (k : ℚ) < (stop - start) / step := by
    rw [lt_div_iff₀ hs]
    linarith
  have h2 : (k : ℤ) < ⌈(stop - start) / step⌉ := by
    rw [Int.lt_ceil]
    exact_mod_cast h1
  omega

/-- `arange` is strictly increasing for a positive step. -/
lemma arange_pairwise (start stop step : ℚ) (hs : 0 < step) :
    (arange start stop step).Pairwise (· < ·) := by
  rw [arange, if_pos hs]
  refine List.Pairwise.map _ (fun a b hab => ?_)
    (List.pairwise_lt_range (⌈(stop - start) / step⌉).toNat)
  have h : (a : ℚ) < (b : ℚ) := by exact_mod_cast hab
  nlinarith

/-- The fault-free sweep either exits at a pre-check (empty result) or is the
per-window-size `filterMap` of the loop body over the generated sizes. -/
lemma gqualityRun_eq_nil_or_filterMap (inner drag timeS adjTime : List ℚ)
    (gqStart gqEnd gqStep sr : ℚ) :
    gqualityRun inner drag timeS adjTime gqStart gqEnd gqStep sr = [] ∨
    gqualityRun inner drag timeS adjTime gqStart gqEnd gqStep sr =
      (arange gqStart (gqEnd + gqStep) gqStep).filterMap
        (gqRow inner timeS drag adjTime sr) := by
  rw [gqualityRun, gqualityRunExc]
  split_ifs with h1 h2
  · exact Or.inl rfl
  · exact Or.inl rfl
  · exact Or.inr rfl

/-- When the pre-checks pass (some sensor nonempty with enough samples for
the smallest window), the sweep is exactly the per-window `filterMap`. -/
lemma gqualityRun_eq_filterMap (inner drag timeS adjTime : List ℚ)
    (gqStart gqEnd gqStep sr : ℚ)
    (hne : inner ≠ [])
    (hmin : pyInt (gqStart * sr) ≤ (inner.length : ℤ)) :
    gqualityRun inner drag timeS adjTime gqStart gqEnd gqStep sr =
      (arange gqStart (gqEnd + gqStep) gqStep).filterMap
        (gqRow inner timeS drag adjTime sr) := by
  have hIe : inner.isEmpty = false := by
    cases inner with
    | nil => exact absurd rfl hne
    | cons a l => rfl
  rw [gqualityRun, gqualityRunExc]
  rw [if_neg (by simp [hIe]), if_neg (by simp [hIe, hmin])]

lemma pyInt_fifth_ten : pyInt ((1/5 : ℚ) * 10) = 2 := by
  rw [show ((1/5 : ℚ) * 10) = ((2:ℤ):ℚ) / ((1:ℕ):ℚ) by norm_num,
    pyInt_div_eq 2 1 (by norm_num)]
  decide

lemma arange_config : arange (1/5) (3/5) (1/5) = [1/5, 2/5] := by
  rw [arange, if_pos (by norm_num)]
  rw [show ((3/5 : ℚ) - 1/5) / (1/5) = ((2:ℤ):ℚ) by norm_num, Int.ceil_intCast]
  norm_num [List.range_succ]

lemma calc_stats_zeros :
    calculate_statistics [0, 0] [0, 0] (1/5) 10 = .ok (some (0, 0, 0)) := by
  rw [calculate_statistics]
  norm_num [windowSamples_tenth_ten, statsRowsAux, popVar, meanAbs, listMean,
    listSum, argminQ, Except.map, intToNat_ofNat, List.getD]

lemma sensorStats_zeros :
    sensorStats [0, 0] [0, 0] (1/5) 10 = (some 0, some 0, some 0) := by
  have hcond : (!([0, 0] : List ℚ).isEmpty &&
      decide (pyInt ((1/5 : ℚ) * 10) ≤ (([0, 0] : List ℚ).length : ℤ))) = true := by
    rw [pyInt_fifth_ten]
    rfl
  rw [sensorStats, if_pos hcond, calc_stats_zeros]

lemma sensorStats_empty (t : List ℚ) (ws sr : ℚ) :
    sensorStats [] t ws sr = (none, none, none) := by
  rw [sensorStats]
  simp

lemma gqRow_zeros :
    gqRow [0, 0] [0, 0] [] [] 10 (1/5) =
      some ⟨1/5, some 0, some 0, some 0, none, none, none⟩ := by
  rw [gqRow, sensorStats_zeros, sensorStats_empty [] (1/5) 10]
  simp

/-- Start-index search for one sensor: least index with time ≥ 0 when one
exists. -/
lemma find_start_index_spec (timeS : List ℚ)
    (hex : ∃ j, j < timeS.length ∧ 0 ≤ timeS.getD j 0) :
    find_start_index (some timeS) < timeS.length ∧
    0 ≤ timeS.getD (find_start_index (some timeS)) 0 ∧
    ∀ j < find_start_index (some timeS), timeS.getD j 0 < 0 := by
  have hne : timeS ≠ [] := by
    rintro rfl
    obtain ⟨j, hj, _⟩ := hex
    simp at hj
  have hEe : timeS.isEmpty = false := by
    cases timeS with
    | nil => exact absurd rfl hne
    | cons a l => rfl
  have hW : npWhere (fun x => decide (0 ≤ x)) timeS ≠ [] := by
    rw [npWhere_ne_nil_iff]
    obtain ⟨j, hj, hx⟩ := hex
    exact ⟨j, hj, by simpa using hx⟩
  obtain ⟨h1, h2, h3⟩ := npWhere_headD_spec _ timeS hW
  have hval : find_start_index (some timeS) =
      (npWhere (fun x => decide (0 ≤ x)) timeS).headD 0 := by
    rw [find_start_index, hEe]
    rfl
  rw [hval]
  refine ⟨h1, by simpa using h2, fun j hj => by simpa using h3 j hj⟩

/-- The min-index search succeeds whenever the start index is in range. -/
lemma findMinIndex_ok (timeS : List ℚ) (s : ℕ) (hs : s < timeS.length)
    (minSec : ℚ) :
    findMinIndex timeS s minSec = .ok ((npWhere
      (fun x => decide (timeS.getD s 0 + minSec ≤ x)) timeS).headD s) := by
  have hget : timeS.get? s = some (timeS.getD s 0) := by
    rw [List.get?_eq_getElem?, List.getD_eq_getElem?_getD,
      List.getElem?_eq_getElem hs]
    rfl
  rw [findMinIndex, hget]

/-- End-index search, candidate case: the first index at or after the min
index whose gravity level reaches the threshold. -/
lemma find_end_index_cand (gl : List ℚ) (m : ℕ) (egl : ℚ) (hgl : gl ≠ [])
    (hne : (npWhere (fun x => decide (egl ≤ x)) gl).filter
      (fun i => decide (m ≤ i)) ≠ []) :
    ∃ eN : ℕ, find_end_index (some gl) m egl = (eN : ℤ) ∧ m ≤ eN ∧
      eN < gl.length ∧ egl ≤ gl.getD eN 0 := by
  have hEe : gl.isEmpty = false := by
    cases gl with
    | nil => exact absurd rfl hgl
    | cons a l => rfl
  obtain ⟨eN, rest, hcons⟩ : ∃ eN rest,
      (npWhere (fun x => decide (egl ≤ x)) gl).filter
        (fun i => decide (m ≤ i)) = eN :: rest := by
    cases h : (npWhere (fun x => decide (egl ≤ x)) gl).filter
        (fun i => decide (m ≤ i)) with
    | nil => exact absurd h hne
    | cons eN rest => exact ⟨eN, rest, rfl⟩
  have hcomb : (npWhere (fun x => decide (egl ≤ x)) gl).filter
      (fun i => decide (m ≤ i)) =
      (List.range gl.length).filter
        (fun i => decide (m ≤ i) && decide (egl ≤ gl.getD i 0)) := by
    rw [npWhere, List.filter_filter]
  have hhead : ((List.range gl.length).filter
      (fun i => decide (m ≤ i) && decide (egl ≤ gl.getD i 0))).head? =
      some eN := by
    rw [← hcomb, hcons]
    rfl
  obtain ⟨h1, h2, _⟩ := filter_range_head _ _ _ hhead
  have h2' : egl ≤ gl.getD eN 0 ∧ m ≤ eN := by
    constructor
    · have := (Bool.and_eq_true _ _).mp h2
      simpa using this.2
    · have := (Bool.and_eq_true _ _).mp h2
      simpa using this.1
  refine ⟨eN, ?_, h2'.2, h1, h2'.1⟩
  rw [find_end_index, hEe]
  simp only [Bool.not_false, if_true]
  rw [hcons]
  rfl

/-- End-index search, fallback case: the sensor's last index. -/
lemma find_end_index_fallback (gl : List ℚ) (m : ℕ) (egl : ℚ) (hgl : gl ≠ [])
    (hnil : (npWhere (fun x => decide (egl ≤ x)) gl).filter
      (fun i => decide (m ≤ i)) = []) :
    find_end_index (some gl) m egl = (gl.length : ℤ) - 1 := by
  have hEe : gl.isEmpty = false := by
    cases gl with
    | nil => exact absurd rfl hgl
    | cons a l => rfl
  rw [find_end_index, hEe]
  simp only [Bool.not_false, if_true]
  rw [hnil]
  rfl

/-- Every element of a slice `l[s : e+1]` is an element of `l` at an index
`≥ s`. -/
lemma pySlice_mem (l : List ℚ) (s : ℕ) (e : ℤ) (x : ℚ)
    (hx : x ∈ pySlice l s e) : ∃ j, s ≤ j ∧ j < l.length ∧ l.getD j 0 = x := by
  rw [pySlice] at hx
  have hx2 : x ∈ l.drop s := List.mem_of_mem_take hx
  obtain ⟨i, hi, hxi⟩ := List.mem_iff_getElem.mp hx2
  rw [List.length_drop] at hi
  refine ⟨s + i, Nat.le_add_right s i, by omega, ?_⟩
  rw [List.getElem_drop] at hxi
  rw [List.getD_eq_getElem?_getD, List.getElem?_eq_getElem (by omega)]
  exact hxi

/-- In a `Pairwise (≤)` list, entries are monotone in the index. -/
lemma sorted_getD_mono (l : List ℚ) (h : l.Pairwise (· ≤ ·)) (i j : ℕ)
    (hij : i ≤ j) (hj : j < l.length) : l.getD i 0 ≤ l.getD j 0 := by
  rcases Nat.eq_or_lt_of_le hij with rfl | hlt
  · exact le_refl _
  · have hi : i < l.length := lt_trans hlt hj
    have := List.pairwise_iff_getElem.mp h i j hi hj hlt
    rw [List.getD_eq_getElem?_getD, List.getElem?_eq_getElem hi,
      List.getD_eq_getElem?_getD, List.getElem?_eq_getElem hj]
    exact this

/-- The last element of the nonempty slice `l[s : e+1]` is `l[e]`. -/
lemma pySlice_getLast (l : List ℚ) (s eN : ℕ) (hse : s ≤ eN)
    (he : eN < l.length) :
    (pySlice l s (eN : ℤ)).getLast? = some (l.getD eN 0) := by
  have htn : ((eN : ℤ) + 1 - (s : ℤ)).toNat = eN + 1 - s := by omega
  rw [pySlice, htn]
  have hlen : ((l.drop s).take (eN + 1 - s)).length = eN + 1 - s := by
    rw [List.length_take, List.length_drop]
    omega
  rw [List.getLast?_eq_getElem?, hlen]
  rw [List.getElem?_take_of_lt (by omega), List.getElem?_drop]
  have hidx : s + (eN + 1 - s - 1) = eN := by omega
  rw [hidx, List.getElem?_eq_getElem he, List.getD_eq_getElem?_getD,
    List.getElem?_eq_getElem he]
  rfl

lemma except_bind_ok {ε α β : Type} (x : α) (f : α → Except ε β) :
    ((Except.ok x : Except ε α) >>= f) = f x := rfl

/-- One sensor's filtered slice: every element's time is nonnegative provided
a start crossing exists, and when the end-threshold condition was met the
final gravity-level element reaches the threshold. -/
lemma sensor_slice_props (timeS gl : List ℚ) (egl : ℚ) (m : ℕ) (e : ℤ)
    (hmono : timeS.Pairwise (· ≤ ·))
    (hstart : ∃ j, j < timeS.length ∧ 0 ≤ timeS.getD j 0)
    (he : e = find_end_index (some gl) m egl) :
    (∀ x ∈ (if ((find_start_index (some timeS) : ℤ)) ≤ e then
      pySlice timeS (find_start_index (some timeS)) e else []), 0 ≤ x) ∧
    (gl ≠ [] →
      ((npWhere (fun x => decide (egl ≤ x)) gl).filter
        (fun i => decide (m ≤ i)) ≠ []) →
      ∀ y, (if ((find_start_index (some timeS) : ℤ)) ≤ e then
        pySlice gl (find_start_index (some timeS)) e else []).getLast? =
          some y → egl ≤ y) := by
  obtain ⟨hs1, hs2, _⟩ := find_start_index_spec timeS hstart
  constructor
  · intro x hx
    by_cases hcond : ((find_start_index (some timeS) : ℤ)) ≤ e
    · rw [if_pos hcond] at hx
      obtain ⟨j, hj1, hj2, hj3⟩ := pySlice_mem timeS _ e x hx
      calc (0:ℚ) ≤ timeS.getD (find_start_index (some timeS)) 0 := hs2
        _ ≤ timeS.getD j 0 := sorted_getD_mono timeS hmono _ j hj1 hj2
        _ = x := hj3
    · rw [if_neg hcond] at hx
      exact absurd hx (List.not_mem_nil x)
  · intro hgl hne y hy
    obtain ⟨eN, heN, hmle, heNlt, hegl⟩ := find_end_index_cand gl m egl hgl hne
    by_cases hcond : ((find_start_index (some timeS) : ℤ)) ≤ e
    · rw [if_pos hcond] at hy
      rw [he, heN] at hcond
      have hsle : find_start_index (some timeS) ≤ eN := by exact_mod_cast hcond
      rw [he, heN] at hy
      rw [pySlice_getLast gl _ eN hsle heNlt] at hy
      injection hy with hy2
      rw [← hy2]
      exact hegl
    · rw [if_neg hcond] at hy
      exact absurd hy (by simp)

/-! ## Claims -/

/-- **C3, counterexample.**  The claim "`calculate_statistics` returns the
all-None triple iff `len(values) < floor(window_size × sampling_rate)`" fails
for a fractional sampling rate: with `values = time = [0]`,
`window_size = 9/10`, `sampling_rate = 5/2`, we have
`len = 1 < 2 = ⌊window_size × sampling_rate⌋`, yet the code truncates the
sampling rate to an integer first (`int(window_size * int(sampling_rate))
= int(0.9 * 2) = 1 ≤ 1 = len`) and returns a real triple, not all-None. -/
theorem c3_counterexample :
    calculate_statistics [0] [0] (9/10) (5/2) = .ok (some (0, 0, 0)) ∧
    ((1:ℤ) < ⌊(9/10 : ℚ) * (5/2 : ℚ)⌋) := by
  constructor
  · rw [calculate_statistics]
    norm_num [windowSamples_frac, statsRowsAux, popVar, meanAbs, listMean,
      listSum, argminQ, Except.map, List.getD]
  · rw [show ((9/10 : ℚ) * (5/2 : ℚ)) = ((9:ℤ):ℚ) / ((4:ℕ):ℚ) by norm_num,
      Rat.floor_intCast_div_natCast]
    decide

/-- **C3** (amended: the threshold is the code's
`int(window_size * int(sampling_rate))` — Python truncations, which agree
with `floor(window_size × sampling_rate)` whenever the sampling rate is an
integer — rather than `floor` of the exact product).  For every pair of
series: with equal lengths, `calculate_statistics` returns the all-None
triple iff `len < windowSamples`; with different lengths it raises
`ValueError`. -/
theorem c3_statistics_none_iff (g t : List ℚ) (ws sr : ℚ) :
    (g.length ≠ t.length →
      calculate_statistics g t ws sr = .error .valueError) ∧
    (g.length = t.length →
      (calculate_statistics g t ws sr = .ok none ↔
        (g.length : ℤ) < windowSamples ws sr)) := by
  refine ⟨calculate_statistics_mismatch g t ws sr, fun hlen => ⟨fun hok => ?_, fun hlt =>
    calculate_statistics_insufficient g t ws sr hlen hlt⟩⟩
  by_contra hge
  push_neg at hge
  rcases le_or_lt (windowSamples ws sr) 0 with h0 | h0
  · have := calculate_statistics_indexError g t ws sr hlen h0
    rw [this] at hok
    exact Except.noConfusion hok
  · obtain ⟨i, _, heq, _, _⟩ :=
      calculate_statistics_run g t ws sr hlen h0 hge
    rw [heq] at hok
    simp at hok

/-- **C3, witness.** -/
theorem c3_witness :
    (calculate_statistics [1] [] 1 1 = .error .valueError) ∧
    (calculate_statistics [1] [2] 1 1 = .ok none ↔
      ((1:ℕ) : ℤ) < windowSamples 1 1) :=
  ⟨(c3_statistics_none_iff [1] [] 1 1).1 (by decide),
   (c3_statistics_none_iff [1] [2] 1 1).2 rfl⟩

/-- **C9.**  When the code's window sample count is zero (in particular for
`floor(window_size × sampling_rate) = 0` and integer sampling rates, and
including empty series), `calculate_statistics` raises `IndexError` instead
of returning any triple: the loop builds `len + 1` windows and its last
iteration reads `time` at index `len`.  The all-None insufficient-data branch
is unreachable because `len < 0` is impossible, so callers must ensure
`window_size × sampling_rate ≥ 1`. -/
theorem c9_zero_window_index_error (g t : List ℚ) (ws sr : ℚ)
    (hlen : g.length = t.length) (h0 : windowSamples ws sr = 0) :
    calculate_statistics g t ws sr = .error .indexError :=
  calculate_statistics_indexError g t ws sr hlen (le_of_eq h0)

/-- **C9, witness** (the empty-series case). -/
theorem c9_witness : calculate_statistics [] [] 0 0 = .error .indexError :=
  c9_zero_window_index_error [] [] 0 0 rfl (by
    rw [windowSamples]
    norm_num)

/-- **C4.**  For every equal-length pair with
`len ≥ window_samples = ⌊window_size × sampling_rate⌋ ≥ 1` (integer sampling
rate): `calculate_statistics` examines the windows `values[i : i + ws]` for
every start index, selects the window with minimal standard deviation taking
the earliest index on ties, and returns its `(mean-of-abs, time[i], std)`;
comparisons are stated on the variance `popVar = std²`, which orders windows
identically (`Real.sqrt` is strictly monotone).  Moreover, on the spec's
concrete input `time = [0, 0.1, 0.2, 0.3, 0.4, 0.5]`,
`gravity = [0.5, 0.45, 0.1, 0.1, 0.1, 0.2]`, `window_size = 0.2`,
`sampling_rate = 10`, it returns `(mean_abs = 0.1, start_time = 0.2,
std = 0)` (variance 0 ⟺ std 0). -/
theorem c4_min_variance_window (g t : List ℚ) (ws : ℚ) (sr : ℤ)
    (hlen : g.length = t.length) (h1 : 1 ≤ ⌊ws * (sr : ℚ)⌋)
    (h2 : ⌊ws * (sr : ℚ)⌋ ≤ (g.length : ℤ)) :
    (∃ i : ℕ, i + (⌊ws * (sr : ℚ)⌋).toNat ≤ g.length ∧
      calculate_statistics g t ws (sr : ℚ) =
        .ok (some (meanAbs ((g.drop i).take (⌊ws * (sr : ℚ)⌋).toNat),
          t.getD i 0, popVar ((g.drop i).take (⌊ws * (sr : ℚ)⌋).toNat))) ∧
      (∀ j, j + (⌊ws * (sr : ℚ)⌋).toNat ≤ g.length →
        popVar ((g.drop i).take (⌊ws * (sr : ℚ)⌋).toNat) ≤
          popVar ((g.drop j).take (⌊ws * (sr : ℚ)⌋).toNat)) ∧
      (∀ j, j < i →
        popVar ((g.drop i).take (⌊ws * (sr : ℚ)⌋).toNat) <
          popVar ((g.drop j).take (⌊ws * (sr : ℚ)⌋).toNat))) ∧
    calculate_statistics [1/2, 9/20, 1/10, 1/10, 1/10, 1/5]
      [0, 1/10, 1/5, 3/10, 2/5, 1/2] (1/5) 10 = .ok (some (1/10, 1/5, 0)) := by
  constructor
  · have hnn : 0 ≤ ws * (sr : ℚ) := by
      have := Int.le_floor.mp h1
      calc (0:ℚ) ≤ 1 := zero_le_one
      _ ≤ ws * (sr : ℚ) := by exact_mod_cast this
    have hws := windowSamples_intCast ws sr hnn
    rw [← hws] at h1 h2 ⊢
    exact calculate_statistics_run g t ws (sr : ℚ) hlen h1 h2
  · rw [calculate_statistics]
    norm_num [windowSamples_tenth_ten, statsRowsAux, popVar, meanAbs,
      listMean, listSum, argminQ, Except.map, intToNat_ofNat, List.getD]

/-- **C4, witness.** -/
theorem c4_witness :
    ([(0:ℚ), 0].length = [(0:ℚ), 0].length ∧ 1 ≤ ⌊(1:ℚ) * ((1:ℤ) : ℚ)⌋ ∧
      ⌊(1:ℚ) * ((1:ℤ) : ℚ)⌋ ≤ ([(0:ℚ), 0].length : ℤ)) ∧
    (∃ i : ℕ, i + (⌊(1:ℚ) * ((1:ℤ) : ℚ)⌋).toNat ≤ [(0:ℚ), 0].length ∧
      calculate_statistics [0, 0] [0, 0] 1 ((1:ℤ) : ℚ) =
        .ok (some (meanAbs (([(0:ℚ), 0].drop i).take (⌊(1:ℚ) * ((1:ℤ) : ℚ)⌋).toNat),
          [(0:ℚ), 0].getD i 0,
          popVar (([(0:ℚ), 0].drop i).take (⌊(1:ℚ) * ((1:ℤ) : ℚ)⌋).toNat))) ∧
      (∀ j, j + (⌊(1:ℚ) * ((1:ℤ) : ℚ)⌋).toNat ≤ [(0:ℚ), 0].length →
        popVar (([(0:ℚ), 0].drop i).take (⌊(1:ℚ) * ((1:ℤ) : ℚ)⌋).toNat) ≤
          popVar (([(0:ℚ), 0].drop j).take (⌊(1:ℚ) * ((1:ℤ) : ℚ)⌋).toNat)) ∧
      (∀ j, j < i →
        popVar (([(0:ℚ), 0].drop i).take (⌊(1:ℚ) * ((1:ℤ) : ℚ)⌋).toNat) <
          popVar (([(0:ℚ), 0].drop j).take (⌊(1:ℚ) * ((1:ℤ) : ℚ)⌋).toNat))) :=
  ⟨⟨rfl, by norm_num, by norm_num⟩,
   (c4_min_variance_window [0, 0] [0, 0] 1 1 rfl (by norm_num) (by norm_num)).1⟩

/-- **C2, counterexample.**  The claim "when no sensor has usable data the
Range Filter logs the condition and does not fail, falling back to returning
the unfiltered inputs" is false: with both gravity series empty,
`filter_data` raises `DataProcessingError`
(`core/data_processor.py:352–353`, before the `try:` block), so the caller
is left with an exception, not the unfiltered inputs. -/
theorem c2_counterexample :
    filter_data [] [] [] [] 0 1 = .error .noData ∧
    ∀ r, filter_data [] [] [] [] 0 1 ≠ .ok r := by
  refine ⟨rfl, fun r h => ?_⟩
  rw [show filter_data ([] : List ℚ) [] [] [] 0 1 = .error .noData from rfl] at h
  exact Except.noConfusion h

/-- **C2** (amended: when no sensor has usable data — both gravity series
empty — `filter_data` raises a `DataProcessingError` ("acceleration data not
found"); it does not log-and-continue and never falls back to returning the
unfiltered inputs). -/
theorem c2_no_data_raises (time glIC glDS adjTime : List ℚ) (minSec egl : ℚ)
    (hIC : glIC = []) (hDS : glDS = []) :
    filter_data time glIC glDS adjTime minSec egl = .error .noData := by
  subst hIC hDS
  rfl

/-- **C2, witness.** -/
theorem c2_witness :
    filter_data [1, 2] [] [] [3] 0 1 = .error .noData :=
  c2_no_data_raises [1, 2] [] [] [3] 0 1 rfl rfl

/-- **C5.**  With both sensors enabled and non-empty acceleration columns:
each sensor's sync point is the first index with
`|acceleration| < acceleration_threshold`; a drag sensor with no such index
defaults to 0; an inner sensor with no such index borrows the drag index when
the drag sensor has one; when neither has one, both default to 0.
(`syncIndices` returns `(sync_index_inner, sync_index_drag)`.) -/
theorem c5_sync_indices (accInner accDrag : List ℚ) (thr : ℚ)
    (hI : accInner ≠ []) (hD : accDrag ≠ []) :
    ((∃ j, j < accDrag.length ∧ |accDrag.getD j 0| < thr) →
      (syncIndices true true accInner accDrag thr).2 < accDrag.length ∧
      |accDrag.getD (syncIndices true true accInner accDrag thr).2 0| < thr ∧
      ∀ j < (syncIndices true true accInner accDrag thr).2,
        ¬(|accDrag.getD j 0| < thr)) ∧
    ((∀ j < accDrag.length, ¬(|accDrag.getD j 0| < thr)) →
      (syncIndices true true accInner accDrag thr).2 = 0) ∧
    ((∃ j, j < accInner.length ∧ |accInner.getD j 0| < thr) →
      (syncIndices true true accInner accDrag thr).1 < accInner.length ∧
      |accInner.getD (syncIndices true true accInner accDrag thr).1 0| < thr ∧
      ∀ j < (syncIndices true true accInner accDrag thr).1,
        ¬(|accInner.getD j 0| < thr)) ∧
    ((∀ j < accInner.length, ¬(|accInner.getD j 0| < thr)) →
      (∃ j, j < accDrag.length ∧ |accDrag.getD j 0| < thr) →
      (syncIndices true true accInner accDrag thr).1 =
        (syncIndices true true accInner accDrag thr).2) ∧
    ((∀ j < accInner.length, ¬(|accInner.getD j 0| < thr)) →
      (∀ j < accDrag.length, ¬(|accDrag.getD j 0| < thr)) →
      (syncIndices true true accInner accDrag thr).1 = 0 ∧
      (syncIndices true true accInner accDrag thr).2 = 0) := by
  have hIe : accInner.isEmpty = false := by
    cases accInner with
    | nil => exact absurd rfl hI
    | cons a l => rfl
  have hDe : accDrag.isEmpty = false := by
    cases accDrag with
    | nil => exact absurd rfl hD
    | cons a l => rfl
  set p : ℚ → Bool := fun x => decide (|x| < thr) with hp
  have hcI : syncCandidates true accInner thr = npWhere p accInner := by
    rw [syncCandidates, hIe]
    rfl
  have hcD : syncCandidates true accDrag thr = npWhere p accDrag := by
    rw [syncCandidates, hDe]
    rfl
  have hmemD : (∃ j, j < accDrag.length ∧ |accDrag.getD j 0| < thr) ↔
      npWhere p accDrag ≠ [] := by
    rw [npWhere_ne_nil_iff]
    simp [hp]
  have hmemI : (∃ j, j < accInner.length ∧ |accInner.getD j 0| < thr) ↔
      npWhere p accInner ≠ [] := by
    rw [npWhere_ne_nil_iff]
    simp [hp]
  refine ⟨?_, ?_, ?_, ?_, ?_⟩
  · intro hex
    have hne := hmemD.mp hex
    obtain ⟨h1, h2, h3⟩ := npWhere_headD_spec p accDrag hne
    have hval : (syncIndices true true accInner accDrag thr).2 =
        (npWhere p accDrag).headD 0 := by
      rw [syncIndices]
      simp only [hcD]
    rw [hval]
    refine ⟨h1, by simpa [hp] using h2, fun j hj => by simpa [hp] using h3 j hj⟩
  · intro hall
    have hnil : npWhere p accDrag = [] := by
      rw [npWhere_eq_nil_iff]
      intro j hj
      simpa [hp] using hall j hj
    rw [syncIndices]
    simp only [hcD, hnil]
    rfl
  · intro hex
    have hne := hmemI.mp hex
    obtain ⟨h1, h2, h3⟩ := npWhere_headD_spec p accInner hne
    have hval : (syncIndices true true accInner accDrag thr).1 =
        (npWhere p accInner).headD 0 := by
      rw [syncIndices]
      simp only [hcI, hcD]
      have : (npWhere p accInner).isEmpty = false := by
        cases h : npWhere p accInner with
        | nil => exact absurd h hne
        | cons a l => rfl
      simp [this]
    rw [hval]
    refine ⟨h1, by simpa [hp] using h2, fun j hj => by simpa [hp] using h3 j hj⟩
  · intro hallI hexD
    have hnilI : npWhere p accInner = [] := by
      rw [npWhere_eq_nil_iff]
      intro j hj
      simpa [hp] using hallI j hj
    have hneD := hmemD.mp hexD
    have hDne : (npWhere p accDrag).isEmpty = false := by
      cases h : npWhere p accDrag with
      | nil => exact absurd h hneD
      | cons a l => rfl
    rw [syncIndices]
    simp [hcI, hcD, hnilI, hDne]
  · intro hallI hallD
    have hnilI : npWhere p accInner = [] := by
      rw [npWhere_eq_nil_iff]
      intro j hj
      simpa [hp] using hallI j hj
    have hnilD : npWhere p accDrag = [] := by
      rw [npWhere_eq_nil_iff]
      intro j hj
      simpa [hp] using hallD j hj
    rw [syncIndices]
    simp [hcI, hcD, hnilI, hnilD]

/-- **C5, witness**: drag `[5, 0.5]` has its first sub-threshold sample at
index 1; inner `[0.2, 3]` at index 0 (threshold 1). -/
theorem c5_witness :
    ((∃ j, j < [(5:ℚ), 1/2].length ∧ |[(5:ℚ), 1/2].getD j 0| < 1) →
      (syncIndices true true [(1:ℚ)/5, 3] [5, 1/2] 1).2 < [(5:ℚ), 1/2].length ∧
      |[(5:ℚ), 1/2].getD (syncIndices true true [(1:ℚ)/5, 3] [5, 1/2] 1).2 0| < 1 ∧
      ∀ j < (syncIndices true true [(1:ℚ)/5, 3] [5, 1/2] 1).2,
        ¬(|[(5:ℚ), 1/2].getD j 0| < 1)) ∧
    (∃ j, j < [(5:ℚ), 1/2].length ∧ |[(5:ℚ), 1/2].getD j 0| < 1) :=
  ⟨(c5_sync_indices [(1:ℚ)/5, 3] [5, 1/2] 1 (by simp) (by simp)).1,
   ⟨1, by norm_num [abs_lt]⟩⟩

/-- **C6, counterexample.**  The claim "every element of a filtered series
has a time value ≥ 0" fails when no sample has time ≥ 0: with nondecreasing,
index-aligned input `time = [-2, -1]`, `gravity_inner = [5, 5]`
(`min_seconds_after_start = 0`, `end_gravity_level = 1`), the start-index
search finds no crossing, falls back to index 0
(`core/data_processor.py:242–243`), and the filtered time series `[-2]`
contains a negative time. -/
theorem c6_counterexample :
    filter_data [-2, -1] [5, 5] [] [] 0 1 = .ok ([-2], [5], [], [], 0) ∧
    ([(-2 : ℚ), -1].Pairwise (· ≤ ·)) ∧
    ¬(∀ x ∈ [(-2 : ℚ)], (0:ℚ) ≤ x) := by
  refine ⟨?_, ?_, ?_⟩
  · rw [filter_data]
    norm_num [find_start_index, findMinIndex, find_end_index, npWhere,
      pySlice, List.getD, List.range_succ, bind, Except.bind, pure,
      Except.pure]
  · norm_num [List.pairwise_cons]
  · intro h
    have := h (-2) (by simp)
    norm_num at this

/-- **C6** (amended: the "time ≥ 0" containment additionally requires that
the sensor's time series contain at least one sample with time ≥ 0 —
otherwise the start index falls back to 0 and negative-time samples are
included, see the counterexample).  For aligned, nondecreasing inputs with
at least one sensor nonempty: `filter_data` succeeds; each sensor's filtered
series is a contiguous slice (common start and length) of its unfiltered
series; every filtered time value is ≥ 0; and whenever the end-threshold
condition was met for a sensor, its final filtered gravity-level element is
≥ `end_gravity_level`. -/
theorem c6_filtered_slices (time glIC glDS adjTime : List ℚ)
    (minSec egl : ℚ)
    (hlenI : time.length = glIC.length) (hlenD : adjTime.length = glDS.length)
    (hmonoI : time.Pairwise (· ≤ ·)) (hmonoD : adjTime.Pairwise (· ≤ ·))
    (hstartI : glIC ≠ [] → ∃ j, j < time.length ∧ 0 ≤ time.getD j 0)
    (hstartD : glDS ≠ [] → ∃ j, j < adjTime.length ∧ 0 ≤ adjTime.getD j 0)
    (hne : ¬(glIC = [] ∧ glDS = [])) :
    ∃ ftime fic fds fadj eidx,
      filter_data time glIC glDS adjTime minSec egl =
        .ok (ftime, fic, fds, fadj, eidx) ∧
      (∃ s k, ftime = (time.drop s).take k ∧ fic = (glIC.drop s).take k) ∧
      (∃ s k, fadj = (adjTime.drop s).take k ∧ fds = (glDS.drop s).take k) ∧
      (∀ x ∈ ftime, 0 ≤ x) ∧ (∀ x ∈ fadj, 0 ≤ x) ∧
      (∀ m : ℕ, findMinIndex time (find_start_index (some time)) minSec =
          .ok m →
        ((npWhere (fun x => decide (egl ≤ x)) glIC).filter
          (fun i => decide (m ≤ i)) ≠ []) →
        ∀ y, fic.getLast? = some y → egl ≤ y) ∧
      (∀ m : ℕ, findMinIndex adjTime (find_start_index (some adjTime))
          minSec = .ok m →
        ((npWhere (fun x => decide (egl ≤ x)) glDS).filter
          (fun i => decide (m ≤ i)) ≠ []) →
        ∀ y, fds.getLast? = some y → egl ≤ y) := by
  by_cases hIC : glIC = []
  · -- inner sensor absent: only the drag side is live
    have hDS : glDS ≠ [] := fun h => hne ⟨hIC, h⟩
    subst hIC
    have hDSe : glDS.isEmpty = false := by
      cases glDS with
      | nil => exact absurd rfl hDS
      | cons a l => rfl
    have hsD : find_start_index (some adjTime) < adjTime.length :=
      (find_start_index_spec adjTime (hstartD hDS)).1
    have hmD := findMinIndex_ok adjTime (find_start_index (some adjTime))
      hsD minSec
    simp only [filter_data, hDSe, List.isEmpty_nil, Bool.not_false,
      Bool.not_true, Bool.false_and, Bool.and_false, Bool.true_and,
      Bool.and_true, if_false, if_true, ite_true, ite_false,
      Bool.false_eq_true, decide_eq_true_eq]
    rw [hmD]
    simp only [except_bind_ok]
    refine ⟨_, _, _, _, _, rfl, ⟨0, 0, by simp⟩, ?_, ?_, ?_, ?_, ?_⟩
    · by_cases hcond : ((find_start_index (some adjTime) : ℤ)) ≤
          find_end_index (some glDS)
            ((npWhere (fun x => decide
              (adjTime.getD (find_start_index (some adjTime)) 0 + minSec ≤ x))
              adjTime).headD (find_start_index (some adjTime))) egl
      · rw [if_pos hcond, if_pos hcond]
        exact ⟨find_start_index (some adjTime), _, rfl, rfl⟩
      · rw [if_neg hcond, if_neg hcond]
        exact ⟨0, 0, by simp, by simp⟩
    · simp
    · exact (sensor_slice_props adjTime glDS egl _ _ hmonoD
        (hstartD hDS) rfl).1
    · intro m hm hcond
      exfalso
      rw [npWhere] at hcond
      simp at hcond
    · intro m hm
      injection hm with hm2
      subst hm2
      exact (sensor_slice_props adjTime glDS egl _ _ hmonoD
        (hstartD hDS) rfl).2 hDS
  · by_cases hDS : glDS = []
    · -- drag sensor absent: only the inner side is live
      subst hDS
      have hICe : glIC.isEmpty = false := by
        cases glIC with
        | nil => exact absurd rfl hIC
        | cons a l => rfl
      have hsI : find_start_index (some time) < time.length :=
        (find_start_index_spec time (hstartI hIC)).1
      have hmI := findMinIndex_ok time (find_start_index (some time))
        hsI minSec
      simp only [filter_data, hICe, List.isEmpty_nil, Bool.not_false,
        Bool.not_true, Bool.false_and, Bool.and_false, Bool.true_and,
        Bool.and_true, if_false, if_true, ite_true, ite_false,
        Bool.false_eq_true, decide_eq_true_eq]
      rw [hmI]
      simp only [except_bind_ok]
      refine ⟨_, _, _, _, _, rfl, ?_, ⟨0, 0, by simp⟩, ?_, ?_, ?_, ?_⟩
      · by_cases hcond : ((find_start_index (some time) : ℤ)) ≤
            find_end_index (some glIC)
              ((npWhere (fun x => decide
                (time.getD (find_start_index (some time)) 0 + minSec ≤ x))
                time).headD (find_start_index (some time))) egl
        · rw [if_pos hcond, if_pos hcond]
          exact ⟨find_start_index (some time), _, rfl, rfl⟩
        · rw [if_neg hcond, if_neg hcond]
          exact ⟨0, 0, by simp, by simp⟩
      · exact (sensor_slice_props time glIC egl _ _ hmonoI
          (hstartI hIC) rfl).1
      · simp
      · intro m hm
        injection hm with hm2
        subst hm2
        exact (sensor_slice_props time glIC egl _ _ hmonoI
          (hstartI hIC) rfl).2 hIC
      · intro m hm hcond
        exfalso
        rw [npWhere] at hcond
        simp at hcond
    · -- both sensors live
      have hICe : glIC.isEmpty = false := by
        cases glIC with
        | nil => exact absurd rfl hIC
        | cons a l => rfl
      have hDSe : glDS.isEmpty = false := by
        cases glDS with
        | nil => exact absurd rfl hDS
        | cons a l => rfl
      have hsI : find_start_index (some time) < time.length :=
        (find_start_index_spec time (hstartI hIC)).1
      have hsD : find_start_index (some adjTime) < adjTime.length :=
        (find_start_index_spec adjTime (hstartD hDS)).1
      have hmI := findMinIndex_ok time (find_start_index (some time))
        hsI minSec
      have hmD := findMinIndex_ok adjTime (find_start_index (some adjTime))
        hsD minSec
      simp only [filter_data, hICe, hDSe, List.isEmpty_nil, Bool.not_false,
        Bool.not_true, Bool.false_and, Bool.and_false, Bool.true_and,
        Bool.and_true, if_false, if_true, ite_true, ite_false,
        Bool.false_eq_true, decide_eq_true_eq]
      rw [hmI]
      simp only [except_bind_ok]
      rw [hmD]
      simp only [except_bind_ok]
      refine ⟨_, _, _, _, _, rfl, ?_, ?_, ?_, ?_, ?_, ?_⟩
      · by_cases hcond : ((find_start_index (some time) : ℤ)) ≤
            find_end_index (some glIC)
              ((npWhere (fun x => decide
                (time.getD (find_start_index (some time)) 0 + minSec ≤ x))
                time).headD (find_start_index (some time))) egl
        · rw [if_pos hcond, if_pos hcond]
          exact ⟨find_start_index (some time), _, rfl, rfl⟩
        · rw [if_neg hcond, if_neg hcond]
          exact ⟨0, 0, by simp, by simp⟩
      · by_cases hcond : ((find_start_index (some adjTime) : ℤ)) ≤
            find_end_index (some glDS)
              ((npWhere (fun x => decide
                (adjTime.getD (find_start_index (some adjTime)) 0 + minSec ≤ x))
                adjTime).headD (find_start_index (some adjTime))) egl
        · rw [if_pos hcond, if_pos hcond]
          exact ⟨find_start_index (some adjTime), _, rfl, rfl⟩
        · rw [if_neg hcond, if_neg hcond]
          exact ⟨0, 0, by simp, by simp⟩
      · exact (sensor_slice_props time glIC egl _ _ hmonoI
          (hstartI hIC) rfl).1
      · exact (sensor_slice_props adjTime glDS egl _ _ hmonoD
          (hstartD hDS) rfl).1
      · intro m hm
        injection hm with hm2
        subst hm2
        exact (sensor_slice_props time glIC egl _ _ hmonoI
          (hstartI hIC) rfl).2 hIC
      · intro m hm
        injection hm with hm2
        subst hm2
        exact (sensor_slice_props adjTime glDS egl _ _ hmonoD
          (hstartD hDS) rfl).2 hDS

/-- **C6, witness.** -/
theorem c6_witness :
    ∃ ftime fic fds fadj eidx,
      filter_data [-1, 0, 1, 2] [1/2, 0, 10, 10] [] [] 0 5 =
        .ok (ftime, fic, fds, fadj, eidx) ∧
      (∃ s k, ftime = ([(-1 : ℚ), 0, 1, 2].drop s).take k ∧
        fic = ([(1:ℚ)/2, 0, 10, 10].drop s).take k) ∧
      (∃ s k, fadj = (([] : List ℚ).drop s).take k ∧
        fds = (([] : List ℚ).drop s).take k) ∧
      (∀ x ∈ ftime, (0:ℚ) ≤ x) ∧ (∀ x ∈ fadj, (0:ℚ) ≤ x) ∧
      (∀ m : ℕ, findMinIndex [-1, 0, 1, 2]
          (find_start_index (some [-1, 0, 1, 2])) 0 = .ok m →
        ((npWhere (fun x => decide ((5:ℚ) ≤ x)) [1/2, 0, 10, 10]).filter
          (fun i => decide (m ≤ i)) ≠ []) →
        ∀ y, fic.getLast? = some y → (5:ℚ) ≤ y) ∧
      (∀ m : ℕ, findMinIndex ([] : List ℚ)
          (find_start_index (some ([] : List ℚ))) 0 = .ok m →
        ((npWhere (fun x => decide ((5:ℚ) ≤ x)) ([] : List ℚ)).filter
          (fun i => decide (m ≤ i)) ≠ []) →
        ∀ y, fds.getLast? = some y → (5:ℚ) ≤ y) :=
  c6_filtered_slices [-1, 0, 1, 2] [1/2, 0, 10, 10] [] [] 0 5
    rfl rfl (by norm_num [List.pairwise_cons]) (by simp)
    (fun _ => ⟨1, by norm_num [List.getD]⟩) (fun h => absurd rfl h)
    (by simp)

/-- **C7.**  For a positive step: the candidate window sizes are the
arithmetic grid `g_quality_start + k·g_quality_step` generated up to
`g_quality_end + g_quality_step` exclusive (hence including `g_quality_end`
whenever it lies on the grid, `end < end + step`, with any overshoot past
`end` excluded only by the Statistics Engine's length check downstream); the
emitted rows' window sizes form a sub-sequence of that generated sequence
(so there are at most as many rows as window sizes, each window size yields
at most one row), in strictly ascending window-size order. -/
theorem c7_sweep_window_sizes (inner drag timeS adjTime : List ℚ)
    (gqStart gqEnd gqStep sr : ℚ) (hstep : 0 < gqStep) :
    ((gqualityRun inner drag timeS adjTime gqStart gqEnd gqStep sr).map
        GQRow.windowSize).Sublist (arange gqStart (gqEnd + gqStep) gqStep) ∧
    (gqualityRun inner drag timeS adjTime gqStart gqEnd gqStep sr).length ≤
      (arange gqStart (gqEnd + gqStep) gqStep).length ∧
    ((gqualityRun inner drag timeS adjTime gqStart gqEnd gqStep sr).map
        GQRow.windowSize).Pairwise (· < ·) ∧
    (∀ w ∈ arange gqStart (gqEnd + gqStep) gqStep,
      ∃ k : ℕ, w = gqStart + k * gqStep) ∧
    (∀ k : ℕ, gqStart + k * gqStep < gqEnd + gqStep →
      gqStart + k * gqStep ∈ arange gqStart (gqEnd + gqStep) gqStep) := by
  have hsub : ((gqualityRun inner drag timeS adjTime gqStart gqEnd gqStep
      sr).map GQRow.windowSize).Sublist
      (arange gqStart (gqEnd + gqStep) gqStep) := by
    rcases gqualityRun_eq_nil_or_filterMap inner drag timeS adjTime
      gqStart gqEnd gqStep sr with h | h
    · rw [h]
      exact List.nil_sublist _
    · rw [h]
      exact map_filterMap_sublist _ _
        (fun x y hxy => gqRow_windowSize inner timeS drag adjTime sr x y hxy) _
  refine ⟨hsub, ?_, ?_, ?_, ?_⟩
  · have := hsub.length_le
    rwa [List.length_map] at this
  · exact (arange_pairwise gqStart (gqEnd + gqStep) gqStep hstep).sublist hsub
  · exact fun w hw => arange_mem_grid gqStart (gqEnd + gqStep) gqStep w hw
  · exact fun k hk => arange_grid_mem gqStart (gqEnd + gqStep) gqStep hstep k hk

/-- **C7, witness.** -/
theorem c7_witness :
    ((gqualityRun [0, 0] [] [0, 0] [] (1/5) (2/5) (1/5) 10).map
        GQRow.windowSize).Sublist (arange (1/5) (2/5 + 1/5) (1/5)) ∧
    (gqualityRun [0, 0] [] [0, 0] [] (1/5) (2/5) (1/5) 10).length ≤
      (arange (1/5) (2/5 + 1/5) (1/5)).length ∧
    ((gqualityRun [0, 0] [] [0, 0] [] (1/5) (2/5) (1/5) 10).map
        GQRow.windowSize).Pairwise (· < ·) ∧
    (∀ w ∈ arange (1/5) (2/5 + 1/5) (1/5), ∃ k : ℕ, w = 1/5 + k * (1/5)) ∧
    (∀ k : ℕ, (1/5 : ℚ) + k * (1/5) < 2/5 + 1/5 →
      (1/5 : ℚ) + k * (1/5) ∈ arange (1/5) (2/5 + 1/5) (1/5)) :=
  c7_sweep_window_sizes [0, 0] [] [0, 0] [] (1/5) (2/5) (1/5) 10 (by norm_num)

/-- **C10.**  Within one window-size iteration, an exception raised by
`calculate_statistics` for the inner sensor is caught by the per-sensor
handler: that sensor's three fields are `None` for that window size, the drag
sensor is still evaluated, the row is emitted iff the drag sensor produced a
non-`None` mean, and the whole sweep is the independent per-window
`filterMap` (so every other window size is still processed normally). -/
theorem c10_sensor_error_isolated (inner drag timeS adjTime : List ℚ)
    (ws sr : ℚ) (e : PyErr)
    (hne : inner ≠ [])
    (hguard : pyInt (ws * sr) ≤ (inner.length : ℤ))
    (herr : calculate_statistics inner timeS ws sr = .error e) :
    sensorStats inner timeS ws sr = (none, none, none) ∧
    gqRow inner timeS drag adjTime sr ws =
      (if (sensorStats drag adjTime ws sr).1.isSome then
        some ⟨ws, none, none, none, (sensorStats drag adjTime ws sr).2.1,
          (sensorStats drag adjTime ws sr).1,
          (sensorStats drag adjTime ws sr).2.2⟩
      else none) ∧
    (∀ gqStart gqEnd gqStep : ℚ, pyInt (gqStart * sr) ≤ (inner.length : ℤ) →
      gqualityRun inner drag timeS adjTime gqStart gqEnd gqStep sr =
        (arange gqStart (gqEnd + gqStep) gqStep).filterMap
          (gqRow inner timeS drag adjTime sr)) := by
  have hIe : inner.isEmpty = false := by
    cases inner with
    | nil => exact absurd rfl hne
    | cons a l => rfl
  have hstats : sensorStats inner timeS ws sr = (none, none, none) := by
    have hcond : (!inner.isEmpty &&
        decide (pyInt (ws * sr) ≤ (inner.length : ℤ))) = true := by
      rw [hIe]
      simpa using hguard
    rw [sensorStats, if_pos hcond, herr]
  refine ⟨hstats, ?_, fun gqStart gqEnd gqStep hmin =>
    gqualityRun_eq_filterMap inner drag timeS adjTime gqStart gqEnd gqStep sr
      hne hmin⟩
  rw [gqRow, hstats]
  by_cases hd : (sensorStats drag adjTime ws sr).1.isSome
  · rw [if_pos hd]
    simp [hd]
  · rw [if_neg hd]
    simp [hd]

/-- **C10, witness**: the inner series `[0, 0]` is paired with the
length-one time series `[0]`, so `calculate_statistics` raises `ValueError`
inside the loop; the drag sensor still yields `(0, 0, 0)` and the row is
emitted with all-`None` inner fields. -/
theorem c10_witness :
    sensorStats [0, 0] [0] (1/5) 10 = (none, none, none) ∧
    gqRow [0, 0] [0] [0, 0] [0, 0] 10 (1/5) =
      (if (sensorStats [0, 0] [0, 0] (1/5) 10).1.isSome then
        some ⟨1/5, none, none, none, (sensorStats [0, 0] [0, 0] (1/5) 10).2.1,
          (sensorStats [0, 0] [0, 0] (1/5) 10).1,
          (sensorStats [0, 0] [0, 0] (1/5) 10).2.2⟩
      else none) ∧
    (∀ gqStart gqEnd gqStep : ℚ,
      pyInt (gqStart * 10) ≤ (([0, 0] : List ℚ).length : ℤ) →
      gqualityRun [0, 0] [0, 0] [0] [0, 0] gqStart gqEnd gqStep 10 =
        (arange gqStart (gqEnd + gqStep) gqStep).filterMap
          (gqRow [0, 0] [0] [0, 0] [0, 0] 10)) :=
  c10_sensor_error_isolated [0, 0] [0, 0] [0] [0, 0] (1/5) 10 .valueError
    (by simp)
    (by rw [pyInt_fifth_ten]; decide)
    (calculate_statistics_mismatch [0, 0] [0] (1/5) 10 (by decide))

/-- **C1, counterexample.**  The claim "after an unexpected mid-sweep
exception the sweep still returns (stores and emits) the rows computed so
far" fails: with inner data `[0, 0]`, two window sizes `[0.2, 0.4]`, and an
unexpected exception in iteration 1, the local row list already holds the
row for window size 0.2, yet the handler at `gui/workers.py:252` stores and
emits the empty list. -/
theorem c1_counterexample :
    gqualityRunExc [0, 0] [] [0, 0] [] (1/5) (2/5) (1/5) 10 (some 1) = [] ∧
    gqRowsUpTo [0, 0] [] [0, 0] [] (1/5) (2/5) (1/5) 10 1 =
      [⟨1/5, some 0, some 0, some 0, none, none, none⟩] := by
  have harange : arange (1/5) (2/5 + 1/5) (1/5) = [1/5, 2/5] := by
    rw [show (2/5 : ℚ) + 1/5 = 3/5 by norm_num, arange_config]
  constructor
  · rw [gqualityRunExc, if_neg (by simp), if_neg ?hcond]
    case hcond =>
      rw [pyInt_fifth_ten]
      simp
    rw [harange]
    rfl
  · rw [gqRowsUpTo, harange]
    simp only [List.take_succ_cons, List.take_zero]
    rw [List.filterMap_cons, gqRow_zeros]
    rfl

/-- **C1** (amended: on an unexpected exception mid-sweep the worker catches
and logs it and does not propagate it, but it stores and emits the **empty
list**, discarding the rows computed so far — it does not return them).
For every input, configuration, and fault iteration `k` inside the loop, the
emitted result is `[]`. -/
theorem c1_exception_empties_result (inner drag timeS adjTime : List ℚ)
    (gqStart gqEnd gqStep sr : ℚ) (k : ℕ)
    (hk : k < (arange gqStart (gqEnd + gqStep) gqStep).length) :
    gqualityRunExc inner drag timeS adjTime gqStart gqEnd gqStep sr
      (some k) = [] := by
  rw [gqualityRunExc]
  split_ifs with h1 h2
  · rfl
  · rfl
  · simp [hk]

/-- **C1, witness.** -/
theorem c1_witness :
    (0 < (arange (1/5) (2/5 + 1/5) (1/5)).length) ∧
    gqualityRunExc [0, 0] [] [0, 0] [] (1/5) (2/5) (1/5) 10 (some 0) = [] :=
  have h0 : 0 < (arange (1/5) ((2:ℚ)/5 + 1/5) (1/5)).length := by
    rw [show (2/5 : ℚ) + 1/5 = 3/5 by norm_num, arange_config]
    simp
  ⟨h0, c1_exception_empties_result [0, 0] [] [0, 0] [] (1/5) (2/5) (1/5) 10 0 h0⟩

/-- **C8.**  `detect_columns` on headers
`time_s, timestamp, acc_x, acceleration_x` (all numeric) returns both
`time_s` and `timestamp` among the time candidates and both
acceleration-named columns among the acceleration candidates, via
case-insensitive substring keyword matching. -/
theorem c8_detect_columns :
    "time_s" ∈ (detect_columns ["time_s", "timestamp", "acc_x",
      "acceleration_x"] (fun _ => true)).1 ∧
    "timestamp" ∈ (detect_columns ["time_s", "timestamp", "acc_x",
      "acceleration_x"] (fun _ => true)).1 ∧
    "acc_x" ∈ (detect_columns ["time_s", "timestamp", "acc_x",
      "acceleration_x"] (fun _ => true)).2 ∧
    "acceleration_x" ∈ (detect_columns ["time_s", "timestamp", "acc_x",
      "acceleration_x"] (fun _ => true)).2 := by
  decide

end AAT
